import Mathlib

/-!
Verification of the terminal snake game engine (`snake_game.py`).

The game state and the tick engine are embedded shallowly:
* `Cell` is a pair of integer coordinates `(row, column)`.
* `Dir` is the four-direction type; `Dir.delta` is the unit vector of
  `UP/DOWN/LEFT/RIGHT` and `Dir.opp` is the `OPPOSITES` table.
* `GState` carries the mutable attributes of class `SnakeGame` that the
  game logic reads and writes.
* Randomness (`random.randint` inside `_random_free_cell`,
  `random.random() < 0.25` inside `_maybe_spawn_bonus`) is modelled by
  passing the sampled cells and the Boolean roll as explicit arguments;
  the predicate `free_cell` captures exactly the acceptance condition of
  the rejection loop of `_random_free_cell`, so a sampled cell that the
  loop can return is one satisfying `free_cell`.
* The file-system for the high score is an `Option String` (`none` for a
  missing or unreadable file).
-/

/-- A grid cell `(y, x)`, exactly the `Tuple[int, int]` of the source. -/
abbrev Cell := Int × Int

/-- The four movement directions `UP`, `DOWN`, `LEFT`, `RIGHT`. -/
inductive Dir where
  | up
  | down
  | left
  | right
deriving DecidableEq

/-- The unit vector of a direction: `UP = (-1, 0)`, `DOWN = (1, 0)`,
`LEFT = (0, -1)`, `RIGHT = (0, 1)`. -/
def Dir.delta : Dir → Cell
  | .up => (-1, 0)
  | .down => (1, 0)
  | .left => (0, -1)
  | .right => (0, 1)

/-- The `OPPOSITES` table of the source. -/
def Dir.opp : Dir → Dir
  | .up => .down
  | .down => .up
  | .left => .right
  | .right => .left

/-- A difficulty preset (`Difficulty` dataclass). -/
structure Difficulty where
  name : String
  speed_ms : Int
  base_obstacles : Nat
deriving DecidableEq

/-- The `DIFFICULTIES` table. -/
def DIFFICULTIES : List Difficulty :=
  [⟨"Calm", 140, 1⟩, ⟨"Classic", 100, 3⟩, ⟨"Turbo", 70, 5⟩]

/-- Play-field geometry, as computed in `SnakeGame.__init__` from the
terminal size: `play_top = 3`, `play_left = 2`, `play_height = sh - 5`,
`play_width = sw - 4`. -/
structure Geom where
  play_top : Int
  play_left : Int
  play_height : Int
  play_width : Int
deriving DecidableEq

/-- The mutable game state of `SnakeGame` that the game logic touches.
The snake list has the head at index 0 (`deque` with `appendleft`). -/
structure GState where
  snake : List Cell
  direction : Dir
  move_queue : List Dir
  food : Cell
  bonus_food : Option Cell
  bonus_timer : Int
  obstacles : Finset Cell
  pending_growth : Int
  score : Int
  level : Int
  speed_ms : Int
  high_score : Int
deriving DecidableEq

/-- `_hits_wall`: true iff the position lies on or outside the border
ring of the play field. -/
def hits_wall (g : Geom) (p : Cell) : Bool :=
  decide (p.1 ≤ g.play_top) ||
  decide (p.1 ≥ g.play_top + g.play_height - 1) ||
  decide (p.2 ≤ g.play_left) ||
  decide (p.2 ≥ g.play_left + g.play_width - 1)

/-- The range of `random.randint` in `_random_free_cell`: interior rows
`play_top + 1 .. play_top + play_height - 2` and columns
`play_left + 1 .. play_left + play_width - 2`, both ends inclusive. -/
def in_interior (g : Geom) (p : Cell) : Bool :=
  decide (g.play_top + 1 ≤ p.1) &&
  decide (p.1 ≤ g.play_top + g.play_height - 2) &&
  decide (g.play_left + 1 ≤ p.2) &&
  decide (p.2 ≤ g.play_left + g.play_width - 2)

/-- Acceptance condition of the rejection loop in `_random_free_cell`:
the drawn interior cell is kept iff it is not on the snake, not an
obstacle, not the food and not the bonus food (comparison with a `None`
bonus is `False` in the source, hence the `Option` on the bonus). -/
def free_cell (g : Geom) (snake : List Cell) (obstacles : Finset Cell)
    (food : Cell) (bonus : Option Cell) (c : Cell) : Bool :=
  in_interior g c &&
  decide (c ∉ snake) &&
  decide (c ∉ obstacles) &&
  decide (c ≠ food) &&
  decide (bonus ≠ some c)

/-- Reference direction of `_queue_move`: the last queued entry when the
queue is non-empty, else the snake's current direction. -/
def ref_dir (s : GState) : Dir :=
  match s.move_queue.getLast? with
  | some d => d
  | none => s.direction

/-- `_queue_move`: reject a 180° reversal of the reference direction and
a duplicate of it; otherwise append, but only while the queue holds
fewer than 3 entries. -/
def queue_move (s : GState) (new_dir : Dir) : GState :=
  let last_dir := ref_dir s
  if new_dir ≠ last_dir.opp ∧ new_dir ≠ last_dir then
    if s.move_queue.length < 3 then
      { s with move_queue := s.move_queue ++ [new_dir] }
    else s
  else s

/-- The 3-segment snake placed by `_reset_round`, centered in the field
(Python `//` is floor division, `Int.fdiv`), head first. -/
def initial_snake (g : Geom) : List Cell :=
  let center_y := g.play_top + g.play_height.fdiv 2
  let center_x := g.play_left + g.play_width.fdiv 2
  [(center_y, center_x + 1), (center_y, center_x), (center_y, center_x - 1)]

/-- `_reset_round`: zero the round counters, clear the move queue, place
the centered snake, then the obstacles (cells of `obs_cells`, drawn one
by one by `_random_free_cell`), then the food (`fcell`).  The high score
is not touched.  During the sampling the food attribute holds the
placeholder `(-1, -1)` and the bonus is `None`. -/
def reset_round (g : Geom) (diff : Difficulty) (s : GState)
    (obs_cells : List Cell) (fcell : Cell) : GState :=
  { snake := initial_snake g
    direction := .right
    move_queue := []
    food := fcell
    bonus_food := none
    bonus_timer := 0
    obstacles := obs_cells.foldl (fun acc c => insert c acc) ∅
    pending_growth := 0
    score := 0
    level := 1
    speed_ms := diff.speed_ms
    high_score := s.high_score }

/-- The obstacle cells of `_reset_round` are drawn sequentially; each
draw must be free with respect to the snake, the obstacles placed so
far, the food placeholder `(-1, -1)` and the absent bonus. -/
def obs_cells_ok (g : Geom) (snake : List Cell) :
    List Cell → Finset Cell → Bool
  | [], _ => true
  | c :: rest, acc =>
      free_cell g snake acc (-1, -1) none c &&
      obs_cells_ok g snake rest (insert c acc)

/-- The sampling constraints a run of `_reset_round` satisfies: the
obstacle list has the difficulty's length, each obstacle draw and the
food draw pass the `_random_free_cell` filter at their moment. -/
def ResetOK (g : Geom) (diff : Difficulty)
    (obs_cells : List Cell) (fcell : Cell) : Prop :=
  obs_cells.length = diff.base_obstacles ∧
  obs_cells_ok g (initial_snake g) obs_cells ∅ = true ∧
  free_cell g (initial_snake g)
    (obs_cells.foldl (fun acc c => insert c acc) ∅) (-1, -1) none fcell = true

/-- The new head computed by `_advance_snake`:
`(head_y + delta_y, head_x + delta_x)`. -/
def GState.new_head (s : GState) : Cell :=
  (s.snake.headI.1 + s.direction.delta.1, s.snake.headI.2 + s.direction.delta.2)

/-- Lines 371-375 of `_advance_snake`: push the new head; while pending
growth is positive consume one unit instead of popping the tail. -/
def moved (s : GState) : GState :=
  let snake1 := s.new_head :: s.snake
  if s.pending_growth > 0 then
    { s with snake := snake1, pending_growth := s.pending_growth - 1 }
  else
    { s with snake := snake1.dropLast }

/-- `_maybe_spawn_bonus`: when no bonus is active and the 25% roll
succeeds, place the bonus at the sampled cell with a 35-tick timer. -/
def maybe_spawn_bonus (s : GState) (roll : Bool) (bcell : Cell) : GState :=
  if s.bonus_food = none ∧ roll = true then
    { s with bonus_food := some bcell, bonus_timer := 35 }
  else s

/-- `_maybe_level_up`: at score ≥ 50·level, raise the level, speed up by
7 ms (floor 30) and add one sampled obstacle cell. -/
def maybe_level_up (s : GState) (ocell : Cell) : GState :=
  let target := 50 * s.level
  if s.score ≥ target then
    { s with level := s.level + 1
             speed_ms := max 30 (s.speed_ms - 7)
             obstacles := insert ocell s.obstacles }
  else s

/-- Lines 377-388 of `_advance_snake` (the consumption block), applied
to the state after the snake moved.  `nh` is the new head.  Note that
the food is re-placed (`self.food = self._random_free_cell()`)
unconditionally inside the block, before the bonus branch. -/
def consume (s1 : GState) (nh : Cell) (fcell : Cell) (roll : Bool)
    (bcell ocell : Cell) : GState :=
  let ate_bonus := s1.bonus_food = some nh
  if nh = s1.food ∨ ate_bonus then
    let gained : Int := if ate_bonus then 15 else 10
    let sA := { s1 with score := s1.score + gained
                        pending_growth := s1.pending_growth + 1
                        food := fcell }
    let sB :=
      if ate_bonus then
        { sA with bonus_food := none, speed_ms := max 40 (sA.speed_ms - 5) }
      else maybe_spawn_bonus sA roll bcell
    maybe_level_up sB ocell
  else s1

/-- Lines 390-393 of `_advance_snake`: an active bonus loses one timer
tick and disappears when the timer reaches 0 or less. -/
def tick_bonus (s : GState) : GState :=
  match s.bonus_food with
  | some _ =>
      let t := s.bonus_timer - 1
      if t ≤ 0 then { s with bonus_food := none, bonus_timer := t }
      else { s with bonus_timer := t }
  | none => s

/-- Lines 395-396 of `_advance_snake`: record a new high score. -/
def update_high (s : GState) : GState :=
  if s.score > s.high_score then { s with high_score := s.score } else s

/-- `_advance_snake`.  The Boolean result is the Python return value:
`false` means the tick crashed (game over), `true` means the round
continues.  `fcell`, `roll`, `bcell`, `ocell` stand for the random draws
the call may make (food re-placement, 25% bonus roll, bonus cell,
level-up obstacle cell). -/
def advance_snake (g : Geom) (s : GState) (fcell : Cell) (roll : Bool)
    (bcell ocell : Cell) : Bool × GState :=
  let nh := s.new_head
  if hits_wall g nh || decide (nh ∈ s.snake) || decide (nh ∈ s.obstacles) then
    (false, s)
  else
    (true, update_high (tick_bonus (consume (moved s) nh fcell roll bcell ocell)))

/-- The constraints the random draws of one `_advance_snake` call
satisfy whenever the rejection loops return: each sampled cell passes
the `_random_free_cell` filter against the state at its sampling
moment. -/
def OracleOK (g : Geom) (s : GState) (fcell : Cell) (roll : Bool)
    (bcell ocell : Cell) : Prop :=
  let nh := s.new_head
  let s1 := moved s
  let ab := s1.bonus_food = some nh
  let ate := nh = s1.food ∨ ab
  let gained : Int := if ab then 15 else 10
  let bonus2 : Option Cell :=
    if ab then none
    else if s1.bonus_food = none ∧ roll = true then some bcell
    else s1.bonus_food
  (ate → free_cell g s1.snake s1.obstacles s1.food s1.bonus_food fcell = true) ∧
  (ate → ¬ab → s1.bonus_food = none → roll = true →
    free_cell g s1.snake s1.obstacles fcell none bcell = true) ∧
  (ate → s1.score + gained ≥ 50 * s1.level →
    free_cell g s1.snake s1.obstacles fcell bonus2 ocell = true)

/-- Pairwise disjointness of the entity groups: no snake cell is an
obstacle, the food or the bonus, and food, bonus and obstacles are
mutually distinct cells. -/
def EntitiesDisjoint (s : GState) : Prop :=
  (∀ c ∈ s.snake, c ∉ s.obstacles) ∧
  s.food ∉ s.snake ∧
  s.food ∉ s.obstacles ∧
  (∀ b ∈ s.bonus_food, b ∉ s.snake ∧ b ∉ s.obstacles ∧ b ≠ s.food)

/-- States reachable at tick boundaries: a freshly reset round, followed
by any number of `_advance_snake` calls that return `True`, the random
draws of each call satisfying the sampling constraints. -/
inductive Reachable (g : Geom) : GState → Prop where
  | base (diff : Difficulty) (s : GState) (obs_cells : List Cell) (fcell : Cell)
      (h : ResetOK g diff obs_cells fcell) :
      Reachable g (reset_round g diff s obs_cells fcell)
  | step (s : GState) (fcell : Cell) (roll : Bool) (bcell ocell : Cell)
      (hs : Reachable g s)
      (hok : OracleOK g s fcell roll bcell ocell)
      (hcont : (advance_snake g s fcell roll bcell ocell).1 = true) :
      Reachable g (advance_snake g s fcell roll bcell ocell).2

/-- Model of Python's `int(...)` applied to stripped text: an optional
sign followed by at least one decimal digit; anything else fails. -/
def digits_to_nat (l : List Char) : Option Nat :=
  if l ≠ [] ∧ l.all Char.isDigit then
    some (l.foldl (fun a c => 10 * a + (c.toNat - 48)) 0)
  else none

/-- Model of Python's `int(...)` on a string. -/
def parse_int (s : String) : Option Int :=
  match s.toList with
  | '-' :: rest => (digits_to_nat rest).map (fun n => -(n : Int))
  | '+' :: rest => (digits_to_nat rest).map (fun n => (n : Int))
  | l => (digits_to_nat l).map (fun n => (n : Int))

/-- Model of Python's `str.strip()`: drop whitespace from both ends. -/
def py_strip (s : String) : String :=
  ⟨((s.data.dropWhile Char.isWhitespace).reverse.dropWhile
      Char.isWhitespace).reverse⟩

/-- `_load_high_score`: the score file is an `Option String` (`none`
for missing/unreadable); unparseable content falls back to `0` via the
`except` clause.  Total, hence it never raises. -/
def load_high_score (file : Option String) : Int :=
  match file with
  | none => 0
  | some content => (parse_int (py_strip content)).getD 0

/-- `_save_high_score`: overwrite the file with `max(high_score, 0)`. -/
def save_high_score (high_score : Int) : Option String :=
  some (toString (max high_score 0))

/-! ### Concrete fixtures (used by witnesses and counterexamples) -/

/-- Geometry of a 15×24 terminal: interior rows `4..11`, columns
`3..20`. -/
def gMain : Geom := ⟨3, 2, 10, 20⟩

/-- Geometry of a 10×8 terminal (`play_height = 5`, `play_width = 4`):
the interior is only 2 columns wide, too narrow for the centered
3-segment snake. -/
def gSmall : Geom := ⟨3, 2, 5, 4⟩

/-- The `Calm` difficulty preset. -/
def dCalm : Difficulty := ⟨"Calm", 140, 1⟩

/-- A mid-round state on `gMain`: 2-segment snake moving right, food at
`(5, 5)`, no bonus, no obstacles. -/
def stBase : GState :=
  { snake := [(8, 12), (8, 11)]
    direction := .right
    move_queue := []
    food := (5, 5)
    bonus_food := none
    bonus_timer := 0
    obstacles := ∅
    pending_growth := 0
    score := 0
    level := 1
    speed_ms := 100
    high_score := 0 }

/-- `stBase` with pending growth. -/
def stGrow : GState := { stBase with pending_growth := 2 }

/-- `stBase` with an active bonus directly ahead of the snake head. -/
def stBonus : GState := { stBase with bonus_food := some (8, 13), bonus_timer := 5 }

/-- `stBase` with the food directly ahead and 45 points: eating the
10-point food crosses the `50 × 1` threshold. -/
def stFood : GState := { stBase with food := (8, 13), score := 45 }

/-- `stBase` turned around, so the computed new head is the tail. -/
def stTail : GState := { stBase with direction := .left }

/-- A state about to run into the top border: head at row 4 moving up. -/
def stWall : GState := { stBase with snake := [(4, 12), (4, 11)], direction := .up }

/-! ### Field lemmas for the tick stages -/

theorem moved_food (s : GState) : (moved s).food = s.food := by
  unfold moved; split <;> rfl

theorem moved_bonus (s : GState) : (moved s).bonus_food = s.bonus_food := by
  unfold moved; split <;> rfl

theorem moved_timer (s : GState) : (moved s).bonus_timer = s.bonus_timer := by
  unfold moved; split <;> rfl

theorem moved_obstacles (s : GState) : (moved s).obstacles = s.obstacles := by
  unfold moved; split <;> rfl

theorem moved_score (s : GState) : (moved s).score = s.score := by
  unfold moved; split <;> rfl

theorem moved_level (s : GState) : (moved s).level = s.level := by
  unfold moved; split <;> rfl

theorem moved_speed (s : GState) : (moved s).speed_ms = s.speed_ms := by
  unfold moved; split <;> rfl

theorem moved_high (s : GState) : (moved s).high_score = s.high_score := by
  unfold moved; split <;> rfl

theorem mem_moved {s : GState} {c : Cell} (h : c ∈ (moved s).snake) :
    c = s.new_head ∨ c ∈ s.snake := by
  unfold moved at h
  split at h
  · simpa using h
  · have hsub := (List.dropLast_sublist (s.new_head :: s.snake)).subset
    simpa using hsub h

theorem moved_snake_length (s : GState) :
    (moved s).snake.length =
      s.snake.length + (if s.pending_growth > 0 then 1 else 0) := by
  unfold moved
  split
  · next h => simp [h]
  · next h => simp [h]

theorem consume_snake (s1 : GState) (nh fcell : Cell) (roll : Bool)
    (bcell ocell : Cell) :
    (consume s1 nh fcell roll bcell ocell).snake = s1.snake := by
  unfold consume maybe_spawn_bonus maybe_level_up
  dsimp only
  split_ifs <;> rfl

theorem tick_bonus_snake (s : GState) : (tick_bonus s).snake = s.snake := by
  unfold tick_bonus
  split
  · dsimp only; split <;> rfl
  · rfl

theorem tick_bonus_food (s : GState) : (tick_bonus s).food = s.food := by
  unfold tick_bonus
  split
  · dsimp only; split <;> rfl
  · rfl

theorem tick_bonus_obstacles (s : GState) :
    (tick_bonus s).obstacles = s.obstacles := by
  unfold tick_bonus
  split
  · dsimp only; split <;> rfl
  · rfl

theorem tick_bonus_score (s : GState) : (tick_bonus s).score = s.score := by
  unfold tick_bonus
  split
  · dsimp only; split <;> rfl
  · rfl

theorem tick_bonus_level (s : GState) : (tick_bonus s).level = s.level := by
  unfold tick_bonus
  split
  · dsimp only; split <;> rfl
  · rfl

theorem tick_bonus_speed (s : GState) : (tick_bonus s).speed_ms = s.speed_ms := by
  unfold tick_bonus
  split
  · dsimp only; split <;> rfl
  · rfl

theorem tick_bonus_of_none {s : GState} (h : s.bonus_food = none) :
    (tick_bonus s).bonus_food = none := by
  unfold tick_bonus
  split
  · next b heq => rw [h] at heq; exact absurd heq (by simp)
  · exact h

theorem tick_bonus_some {s : GState} {b : Cell}
    (h : (tick_bonus s).bonus_food = some b) : s.bonus_food = some b := by
  unfold tick_bonus at h
  split at h
  · next b' heq =>
      dsimp only at h
      split at h
      · simp at h
      · exact h
  · exact h

theorem update_high_snake (s : GState) : (update_high s).snake = s.snake := by
  unfold update_high; split <;> rfl

theorem update_high_food (s : GState) : (update_high s).food = s.food := by
  unfold update_high; split <;> rfl

theorem update_high_bonus (s : GState) :
    (update_high s).bonus_food = s.bonus_food := by
  unfold update_high; split <;> rfl

theorem update_high_obstacles (s : GState) :
    (update_high s).obstacles = s.obstacles := by
  unfold update_high; split <;> rfl

theorem update_high_score (s : GState) : (update_high s).score = s.score := by
  unfold update_high; split <;> rfl

theorem update_high_level (s : GState) : (update_high s).level = s.level := by
  unfold update_high; split <;> rfl

theorem update_high_speed (s : GState) :
    (update_high s).speed_ms = s.speed_ms := by
  unfold update_high; split <;> rfl

theorem free_cell_spec {g : Geom} {snake : List Cell} {obstacles : Finset Cell}
    {food : Cell} {bonus : Option Cell} {c : Cell}
    (h : free_cell g snake obstacles food bonus c = true) :
    c ∉ snake ∧ c ∉ obstacles ∧ c ≠ food ∧ bonus ≠ some c := by
  simp only [free_cell, Bool.and_eq_true, decide_eq_true_eq] at h
  exact ⟨h.1.1.1.2, h.1.1.2, h.1.2, h.2⟩

/-! ### Invariant preservation -/

theorem obs_fold_not_mem_snake (g : Geom) (snake : List Cell) :
    ∀ (l : List Cell) (acc : Finset Cell),
      obs_cells_ok g snake l acc = true →
      (∀ c ∈ acc, c ∉ snake) →
      ∀ c ∈ l.foldl (fun a x => insert x a) acc, c ∉ snake
  | [], _, _, hacc, c, hc => hacc c hc
  | x :: rest, acc, h, hacc, c, hc => by
      simp only [obs_cells_ok, Bool.and_eq_true] at h
      have hx := free_cell_spec h.1
      refine obs_fold_not_mem_snake g snake rest (insert x acc) h.2 ?_ c ?_
      · intro d hd
        rcases Finset.mem_insert.mp hd with rfl | hd
        · exact hx.1
        · exact hacc d hd
      · simpa using hc

theorem reset_inv (g : Geom) (diff : Difficulty) (s : GState)
    (obs_cells : List Cell) (fcell : Cell)
    (h : ResetOK g diff obs_cells fcell) :
    EntitiesDisjoint (reset_round g diff s obs_cells fcell) := by
  obtain ⟨-, hobs, hfood⟩ := h
  have hof := free_cell_spec hfood
  have hsnake := obs_fold_not_mem_snake g (initial_snake g) obs_cells ∅ hobs
    (by simp)
  unfold EntitiesDisjoint reset_round
  dsimp only
  refine ⟨?_, hof.1, hof.2.1, ?_⟩
  · intro c hcs hco
    exact hsnake c hco hcs
  · intro b hb
    simp at hb
theorem inv_consume (g : Geom) (s : GState) (fcell : Cell) (roll : Bool)
    (bcell ocell : Cell)
    (hI : EntitiesDisjoint s)
    (hok : OracleOK g s fcell roll bcell ocell)
    (hnsnake : s.new_head ∉ s.snake)
    (hnobs : s.new_head ∉ s.obstacles) :
    EntitiesDisjoint (consume (moved s) s.new_head fcell roll bcell ocell) := by
  obtain ⟨hIso, hIfs, hIfo, hIb⟩ := hI
  unfold OracleOK at hok
  dsimp only at hok
  rw [moved_food, moved_bonus, moved_score, moved_level, moved_obstacles] at hok
  obtain ⟨hok1, hok2, hok3⟩ := hok
  have hso1 : ∀ c ∈ (moved s).snake, c ∉ s.obstacles := by
    intro c hc
    rcases mem_moved hc with rfl | hcs
    · exact hnobs
    · exact hIso c hcs
  have hbs1 : ∀ b, s.bonus_food = some b → s.bonus_food ≠ some s.new_head →
      b ∉ (moved s).snake := by
    intro b hb hne hmem
    rcases mem_moved hmem with rfl | hcs
    · exact hne hb
    · exact (hIb b hb).1 hcs
  unfold consume maybe_spawn_bonus maybe_level_up
  dsimp only
  rw [moved_food, moved_bonus, moved_score, moved_level, moved_obstacles]
  split_ifs with hate hab hlvA hsp hlvB hlvC
  · -- ate the bonus, level-up fires
    have hf := free_cell_spec (hok1 hate)
    dsimp only at hlvA
    have h15 : s.score + (if s.bonus_food = some s.new_head then (15 : Int) else 10) ≥
        50 * s.level := by rw [if_pos hab]; exact hlvA
    have ho := hok3 hate h15
    rw [if_pos hab] at ho
    have hoc := free_cell_spec ho
    unfold EntitiesDisjoint
    dsimp only
    refine ⟨?_, hf.1, ?_, by simp⟩
    · intro c hc
      simp only [Finset.mem_insert, not_or]
      exact ⟨fun he => hoc.1 (he ▸ hc), hso1 c hc⟩
    · simp only [Finset.mem_insert, not_or]
      exact ⟨fun he => hoc.2.2.1 he.symm, hf.2.1⟩
  · -- ate the bonus, no level-up
    have hf := free_cell_spec (hok1 hate)
    unfold EntitiesDisjoint
    dsimp only
    exact ⟨hso1, hf.1, hf.2.1, by simp⟩
  · -- ate the food, bonus spawns, level-up fires
    have hf := free_cell_spec (hok1 hate)
    have hb := free_cell_spec (hok2 hate hab hsp.1 hsp.2)
    dsimp only at hlvB
    have h10 : s.score + (if s.bonus_food = some s.new_head then (15 : Int) else 10) ≥
        50 * s.level := by rw [if_neg hab]; exact hlvB
    have ho := hok3 hate h10
    rw [if_neg hab, if_pos hsp] at ho
    have hoc := free_cell_spec ho
    unfold EntitiesDisjoint
    dsimp only
    refine ⟨?_, hf.1, ?_, ?_⟩
    · intro c hc
      simp only [Finset.mem_insert, not_or]
      exact ⟨fun he => hoc.1 (he ▸ hc), hso1 c hc⟩
    · simp only [Finset.mem_insert, not_or]
      exact ⟨fun he => hoc.2.2.1 he.symm, hf.2.1⟩
    · intro b hbmem
      simp only [Option.mem_def, Option.some.injEq] at hbmem
      subst hbmem
      refine ⟨hb.1, ?_, hb.2.2.1⟩
      simp only [Finset.mem_insert, not_or]
      exact ⟨fun he => hoc.2.2.2 (he ▸ rfl), hb.2.1⟩
  · -- ate the food, bonus spawns, no level-up
    have hf := free_cell_spec (hok1 hate)
    have hb := free_cell_spec (hok2 hate hab hsp.1 hsp.2)
    unfold EntitiesDisjoint
    dsimp only
    refine ⟨hso1, hf.1, hf.2.1, ?_⟩
    intro b hbmem
    simp only [Option.mem_def, Option.some.injEq] at hbmem
    subst hbmem
    exact ⟨hb.1, hb.2.1, hb.2.2.1⟩
  · -- ate the food, no spawn, level-up fires
    have hf := free_cell_spec (hok1 hate)
    dsimp only at hlvC
    have h10 : s.score + (if s.bonus_food = some s.new_head then (15 : Int) else 10) ≥
        50 * s.level := by rw [if_neg hab]; exact hlvC
    have ho := hok3 hate h10
    rw [if_neg hab, if_neg hsp] at ho
    have hoc := free_cell_spec ho
    unfold EntitiesDisjoint
    dsimp only
    refine ⟨?_, hf.1, ?_, ?_⟩
    · intro c hc
      simp only [Finset.mem_insert, not_or]
      exact ⟨fun he => hoc.1 (he ▸ hc), hso1 c hc⟩
    · simp only [Finset.mem_insert, not_or]
      exact ⟨fun he => hoc.2.2.1 he.symm, hf.2.1⟩
    · intro b hbmem
      simp only [Option.mem_def] at hbmem
      refine ⟨hbs1 b hbmem hab, ?_, ?_⟩
      · simp only [Finset.mem_insert, not_or]
        refine ⟨fun he => hoc.2.2.2 (he ▸ hbmem), (hIb b hbmem).2.1⟩
      · intro he
        exact hf.2.2.2 (he ▸ hbmem)
  · -- ate the food, no spawn, no level-up
    have hf := free_cell_spec (hok1 hate)
    unfold EntitiesDisjoint
    dsimp only
    refine ⟨hso1, hf.1, hf.2.1, ?_⟩
    intro b hbmem
    simp only [Option.mem_def] at hbmem
    refine ⟨hbs1 b hbmem hab, (hIb b hbmem).2.1, ?_⟩
    intro he
    exact hf.2.2.2 (he ▸ hbmem)
  · -- no consumption
    push_neg at hate
    unfold EntitiesDisjoint
    rw [moved_food, moved_bonus, moved_obstacles]
    refine ⟨hso1, ?_, hIfo, ?_⟩
    · intro hmem
      rcases mem_moved hmem with he | hcs
      · exact hate.1 he.symm
      · exact hIfs hcs
    · intro b hbmem
      simp only [Option.mem_def] at hbmem
      refine ⟨hbs1 b hbmem hate.2, (hIb b hbmem).2.1, (hIb b hbmem).2.2⟩

theorem inv_tick_bonus {t : GState} (h : EntitiesDisjoint t) :
    EntitiesDisjoint (tick_bonus t) := by
  obtain ⟨h1, h2, h3, h4⟩ := h
  refine ⟨?_, ?_, ?_, ?_⟩
  · simp only [tick_bonus_snake, tick_bonus_obstacles]; exact h1
  · simp only [tick_bonus_food, tick_bonus_snake]; exact h2
  · simp only [tick_bonus_food, tick_bonus_obstacles]; exact h3
  · intro b hb
    have hbt := tick_bonus_some (Option.mem_def.mp hb)
    simp only [tick_bonus_snake, tick_bonus_obstacles, tick_bonus_food]
    exact h4 b hbt

theorem inv_update_high {t : GState} (h : EntitiesDisjoint t) :
    EntitiesDisjoint (update_high t) := by
  obtain ⟨h1, h2, h3, h4⟩ := h
  refine ⟨?_, ?_, ?_, ?_⟩
  · simp only [update_high_snake, update_high_obstacles]; exact h1
  · simp only [update_high_food, update_high_snake]; exact h2
  · simp only [update_high_food, update_high_obstacles]; exact h3
  · intro b hb
    simp only [update_high_snake, update_high_obstacles, update_high_food]
    exact h4 b (by simpa [Option.mem_def, update_high_bonus] using hb)

theorem advance_inv (g : Geom) (s : GState) (fcell : Cell) (roll : Bool)
    (bcell ocell : Cell)
    (hI : EntitiesDisjoint s)
    (hok : OracleOK g s fcell roll bcell ocell)
    (hcont : (advance_snake g s fcell roll bcell ocell).1 = true) :
    EntitiesDisjoint (advance_snake g s fcell roll bcell ocell).2 := by
  unfold advance_snake at hcont ⊢
  dsimp only at hcont ⊢
  by_cases hc : (hits_wall g s.new_head || decide (s.new_head ∈ s.snake) ||
      decide (s.new_head ∈ s.obstacles)) = true
  · rw [if_pos hc] at hcont
    simp at hcont
  · rw [if_neg hc]
    simp only [Bool.or_eq_true, decide_eq_true_eq, not_or] at hc
    have h2 := inv_consume g s fcell roll bcell ocell hI hok hc.1.2 hc.2
    dsimp only
    exact inv_update_high (inv_tick_bonus h2)

/-! ### Branch computations of the consumption block -/

theorem maybe_spawn_bonus_snake (s : GState) (roll : Bool) (b : Cell) :
    (maybe_spawn_bonus s roll b).snake = s.snake := by
  unfold maybe_spawn_bonus; split <;> rfl

theorem maybe_spawn_bonus_food (s : GState) (roll : Bool) (b : Cell) :
    (maybe_spawn_bonus s roll b).food = s.food := by
  unfold maybe_spawn_bonus; split <;> rfl

theorem maybe_spawn_bonus_score (s : GState) (roll : Bool) (b : Cell) :
    (maybe_spawn_bonus s roll b).score = s.score := by
  unfold maybe_spawn_bonus; split <;> rfl

theorem maybe_spawn_bonus_level (s : GState) (roll : Bool) (b : Cell) :
    (maybe_spawn_bonus s roll b).level = s.level := by
  unfold maybe_spawn_bonus; split <;> rfl

theorem maybe_spawn_bonus_speed (s : GState) (roll : Bool) (b : Cell) :
    (maybe_spawn_bonus s roll b).speed_ms = s.speed_ms := by
  unfold maybe_spawn_bonus; split <;> rfl

theorem consume_bonus_case (s1 : GState) (nh fcell : Cell) (roll : Bool)
    (bcell ocell : Cell)
    (hab : s1.bonus_food = some nh)
    (hlt : s1.score + 15 < 50 * s1.level) :
    consume s1 nh fcell roll bcell ocell =
      { s1 with score := s1.score + 15
                pending_growth := s1.pending_growth + 1
                food := fcell
                bonus_food := none
                speed_ms := max 40 (s1.speed_ms - 5) } := by
  unfold consume
  dsimp only
  rw [if_pos (Or.inr hab), if_pos hab, if_pos hab]
  unfold maybe_level_up
  dsimp only
  rw [if_neg (not_le.mpr hlt)]

theorem consume_food_case (s1 : GState) (nh fcell : Cell) (roll : Bool)
    (bcell ocell : Cell)
    (hfd : nh = s1.food)
    (hnab : s1.bonus_food ≠ some nh)
    (hlt : s1.score + 10 < 50 * s1.level) :
    consume s1 nh fcell roll bcell ocell =
      maybe_spawn_bonus
        { s1 with score := s1.score + 10
                  pending_growth := s1.pending_growth + 1
                  food := fcell } roll bcell := by
  unfold consume
  dsimp only
  rw [if_pos (Or.inl hfd), if_neg hnab, if_neg hnab]
  unfold maybe_level_up
  dsimp only
  rw [maybe_spawn_bonus_score, maybe_spawn_bonus_level]
  dsimp only
  rw [if_neg (not_le.mpr hlt)]

/-! ### Claims -/

/-- C1: `_advance_snake` returns `False` (Crashed) if and only if the
computed new head `head + direction` lies on or outside the wall ring
(`_hits_wall`), or is a member of the snake body, or is a member of the
obstacle set; and whenever it crashes, the entire game state is
returned unmodified. -/
theorem advance_crash_iff (g : Geom) (s : GState) (fcell : Cell)
    (roll : Bool) (bcell ocell : Cell) :
    ((advance_snake g s fcell roll bcell ocell).1 = false ↔
      hits_wall g s.new_head = true ∨ s.new_head ∈ s.snake ∨
        s.new_head ∈ s.obstacles) ∧
    ((advance_snake g s fcell roll bcell ocell).1 = false →
      (advance_snake g s fcell roll bcell ocell).2 = s) := by
  unfold advance_snake
  dsimp only
  by_cases hc : (hits_wall g s.new_head || decide (s.new_head ∈ s.snake) ||
      decide (s.new_head ∈ s.obstacles)) = true
  · rw [if_pos hc]
    simp only [Bool.or_eq_true, decide_eq_true_eq] at hc
    exact ⟨iff_of_true rfl (by tauto), fun _ => rfl⟩
  · rw [if_neg hc]
    simp only [Bool.or_eq_true, decide_eq_true_eq, not_or] at hc
    refine ⟨iff_of_false (by simp) (by tauto), fun h => absurd h (by simp)⟩

/-- C1 witness: running into the top border crashes and the state comes
back unchanged. -/
theorem advance_crash_iff_witness :
    (hits_wall gMain stWall.new_head = true ∨ stWall.new_head ∈ stWall.snake ∨
      stWall.new_head ∈ stWall.obstacles) ∧
    (advance_snake gMain stWall (5, 5) false (6, 6) (7, 7)).1 = false ∧
    (advance_snake gMain stWall (5, 5) false (6, 6) (7, 7)).2 = stWall := by
  have h := advance_crash_iff gMain stWall (5, 5) false (6, 6) (7, 7)
  have hwall : hits_wall gMain stWall.new_head = true := by decide
  have hcrash := h.1.mpr (Or.inl hwall)
  exact ⟨Or.inl hwall, hcrash, h.2 hcrash⟩

/-- C2: a call returning `True` (Continue) grows the snake by exactly
one cell when `pending_growth` was positive before the tick and keeps
the length unchanged otherwise; the length never decreases across an
`_advance_snake` call. -/
theorem advance_length (g : Geom) (s : GState) (fcell : Cell)
    (roll : Bool) (bcell ocell : Cell) :
    ((advance_snake g s fcell roll bcell ocell).1 = true →
      (advance_snake g s fcell roll bcell ocell).2.snake.length =
        s.snake.length + (if s.pending_growth > 0 then 1 else 0)) ∧
    s.snake.length ≤ (advance_snake g s fcell roll bcell ocell).2.snake.length := by
  unfold advance_snake
  dsimp only
  by_cases hc : (hits_wall g s.new_head || decide (s.new_head ∈ s.snake) ||
      decide (s.new_head ∈ s.obstacles)) = true
  · rw [if_pos hc]
    exact ⟨fun h => by simp at h, le_refl _⟩
  · rw [if_neg hc]
    dsimp only
    rw [update_high_snake, tick_bonus_snake, consume_snake, moved_snake_length]
    refine ⟨fun _ => rfl, ?_⟩
    split <;> simp

/-- C2 witness: with pending growth the snake grows from 2 to 3 cells. -/
theorem advance_length_witness :
    (advance_snake gMain stGrow (5, 5) false (6, 6) (7, 7)).1 = true ∧
    (advance_snake gMain stGrow (5, 5) false (6, 6) (7, 7)).2.snake.length =
      stGrow.snake.length + (if stGrow.pending_growth > 0 then 1 else 0) :=
  ⟨by decide,
   (advance_length gMain stGrow (5, 5) false (6, 6) (7, 7)).1 (by decide)⟩

/-- C4: `_maybe_level_up` (which `_advance_snake` applies exactly once
per consumption event, so the check fires at most once) raises the level
by exactly 1, sets the speed to `max 30 (speed - 7)` — a decrease of 7
floored at 30 — and inserts exactly one new obstacle cell whenever the
score has reached `50 × level`; below the threshold it changes
nothing. -/
theorem level_up_effect :
    (∀ (s : GState) (ocell : Cell), ocell ∉ s.obstacles →
      s.score ≥ 50 * s.level →
        (maybe_level_up s ocell).level = s.level + 1 ∧
        (maybe_level_up s ocell).speed_ms = max 30 (s.speed_ms - 7) ∧
        30 ≤ (maybe_level_up s ocell).speed_ms ∧
        (maybe_level_up s ocell).obstacles.card = s.obstacles.card + 1) ∧
    (∀ (s : GState) (ocell : Cell), s.score < 50 * s.level →
      maybe_level_up s ocell = s) := by
  constructor
  · intro s ocell hno hge
    unfold maybe_level_up
    dsimp only
    rw [if_pos hge]
    exact ⟨rfl, rfl, le_max_left _ _, Finset.card_insert_of_not_mem hno⟩
  · intro s ocell hlt
    unfold maybe_level_up
    dsimp only
    rw [if_neg (not_le.mpr hlt)]

/-- C4 witness: at score 50, level 1 the level-up fires with all three
effects. -/
theorem level_up_effect_witness :
    (maybe_level_up { stBase with score := 50 } (9, 9)).level =
      ({ stBase with score := 50 } : GState).level + 1 ∧
    (maybe_level_up { stBase with score := 50 } (9, 9)).speed_ms =
      max 30 (({ stBase with score := 50 } : GState).speed_ms - 7) ∧
    (maybe_level_up { stBase with score := 50 } (9, 9)).obstacles.card =
      ({ stBase with score := 50 } : GState).obstacles.card + 1 := by
  have h := level_up_effect.1 { stBase with score := 50 } (9, 9)
    (by decide) (by decide)
  exact ⟨h.1, h.2.1, h.2.2.2⟩

/-- C5: `_queue_move` is a no-op when the candidate equals the
reference direction (last queued entry, else current direction) or its
opposite, or when the queue already holds 3 entries; otherwise it
appends the candidate at the back.  Queues built by `_queue_move` hold
at most 3 entries, hence the length bound. -/
theorem queue_move_spec (s : GState) (d : Dir)
    (hlen : s.move_queue.length ≤ 3) :
    ((d = (ref_dir s).opp ∨ d = ref_dir s ∨ s.move_queue.length = 3) →
      queue_move s d = s) ∧
    (d ≠ (ref_dir s).opp → d ≠ ref_dir s → s.move_queue.length ≠ 3 →
      (queue_move s d).move_queue = s.move_queue ++ [d]) := by
  unfold queue_move
  dsimp only
  constructor
  · intro h
    rcases h with h | h | h
    · rw [if_neg (fun hcon => hcon.1 h)]
    · rw [if_neg (fun hcon => hcon.2 h)]
    · split_ifs with hv hl
      · omega
      · rfl
      · rfl
  · intro h1 h2 h3
    rw [if_pos ⟨h1, h2⟩, if_pos (by omega)]

/-- C5 witness: queueing `UP` while moving right appends it. -/
theorem queue_move_spec_witness :
    stBase.move_queue.length ≤ 3 ∧
    Dir.up ≠ (ref_dir stBase).opp ∧ Dir.up ≠ ref_dir stBase ∧
    stBase.move_queue.length ≠ 3 ∧
    (queue_move stBase .up).move_queue = stBase.move_queue ++ [Dir.up] :=
  ⟨by decide, by decide, by decide, by decide,
   (queue_move_spec stBase .up (by decide)).2 (by decide) (by decide) (by decide)⟩

/-- C3: in every state reachable from a fresh round by `_advance_snake`
calls that return `True`, the entity groups are pairwise disjoint: no
snake cell is an obstacle, the food or the bonus cell, and food, bonus
and obstacle cells never coincide with each other. -/
theorem reachable_disjoint (g : Geom) (s : GState) (h : Reachable g s) :
    EntitiesDisjoint s := by
  induction h with
  | base diff s0 obs_cells fcell hr => exact reset_inv g diff s0 obs_cells fcell hr
  | step s0 fcell roll bcell ocell hs hok hcont ih =>
      exact advance_inv g s0 fcell roll bcell ocell ih hok hcont

/-- C3 witness: a concrete freshly reset `Calm` round is reachable and
disjoint. -/
theorem reachable_disjoint_witness :
    EntitiesDisjoint (reset_round gMain dCalm stBase [(4, 3)] (5, 5)) :=
  reachable_disjoint gMain _
    (Reachable.base dCalm stBase [(4, 3)] (5, 5) ⟨by decide, by decide, by decide⟩)

/-- C6 counterexample: in `stBonus` the new head eats only the bonus
(not the food), the tick continues, the random draws satisfy the
sampling constraints, and yet the food cell changes — refuting the
claim that the food is re-placed only in the non-bonus branch. -/
theorem bonus_moves_food_cex :
    stBonus.bonus_food = some stBonus.new_head ∧
    stBonus.new_head ≠ stBonus.food ∧
    OracleOK gMain stBonus (6, 6) false (7, 7) (9, 9) ∧
    (advance_snake gMain stBonus (6, 6) false (7, 7) (9, 9)).1 = true ∧
    (advance_snake gMain stBonus (6, 6) false (7, 7) (9, 9)).2.food ≠
      stBonus.food := by
  refine ⟨by decide, by decide, ?_, by decide, by decide⟩
  unfold OracleOK
  exact ⟨fun _ => by decide, fun _ _ _ _ => by decide, fun _ _ => by decide⟩

/-- C6 amended: eating only the bonus awards 15 points, clears the
bonus and sets the speed to `max 40 (speed - 5)`, but it ALSO re-places
the regular food via free-cell sampling (the source re-places the food
unconditionally inside the consumption block); eating only the regular
food awards 10 points, re-places the food, and leaves the speed
unchanged.  The level-up bound excludes the separate level-up speed
change. -/
theorem consumption_effects (g : Geom) (s : GState) (fcell : Cell)
    (roll : Bool) (bcell ocell : Cell) :
    ((advance_snake g s fcell roll bcell ocell).1 = true →
      s.bonus_food = some s.new_head → s.new_head ≠ s.food →
      s.score + 15 < 50 * s.level →
        (advance_snake g s fcell roll bcell ocell).2.score = s.score + 15 ∧
        (advance_snake g s fcell roll bcell ocell).2.bonus_food = none ∧
        (advance_snake g s fcell roll bcell ocell).2.speed_ms =
          max 40 (s.speed_ms - 5) ∧
        (advance_snake g s fcell roll bcell ocell).2.food = fcell) ∧
    ((advance_snake g s fcell roll bcell ocell).1 = true →
      s.new_head = s.food → s.bonus_food ≠ some s.new_head →
      s.score + 10 < 50 * s.level →
        (advance_snake g s fcell roll bcell ocell).2.score = s.score + 10 ∧
        (advance_snake g s fcell roll bcell ocell).2.speed_ms = s.speed_ms ∧
        (advance_snake g s fcell roll bcell ocell).2.food = fcell) := by
  unfold advance_snake
  dsimp only
  by_cases hc : (hits_wall g s.new_head || decide (s.new_head ∈ s.snake) ||
      decide (s.new_head ∈ s.obstacles)) = true
  · rw [if_pos hc]
    exact ⟨fun h => by simp at h, fun h => by simp at h⟩
  · rw [if_neg hc]
    dsimp only
    constructor
    · intro _ hab hnf hlt
      have hcon := consume_bonus_case (moved s) s.new_head fcell roll bcell
        ocell (by rw [moved_bonus]; exact hab)
        (by rw [moved_score, moved_level]; exact hlt)
      rw [hcon]
      refine ⟨?_, ?_, ?_, ?_⟩
      · simp only [update_high_score, tick_bonus_score, moved_score]
      · rw [update_high_bonus]
        exact tick_bonus_of_none rfl
      · simp only [update_high_speed, tick_bonus_speed, moved_speed]
      · simp only [update_high_food, tick_bonus_food]
    · intro _ hfd hnab hlt
      have hcon := consume_food_case (moved s) s.new_head fcell roll bcell
        ocell (by rw [moved_food]; exact hfd)
        (by rw [moved_bonus]; exact hnab)
        (by rw [moved_score, moved_level]; exact hlt)
      rw [hcon]
      refine ⟨?_, ?_, ?_⟩
      · simp only [update_high_score, tick_bonus_score, maybe_spawn_bonus_score,
          moved_score]
      · simp only [update_high_speed, tick_bonus_speed, maybe_spawn_bonus_speed,
          moved_speed]
      · simp only [update_high_food, tick_bonus_food, maybe_spawn_bonus_food]

/-- C6 amended witness: the bonus-only case at `stBonus` and the
food-only case at `stFood` with a level bound relaxed to stock states.
-/
theorem consumption_effects_witness :
    ((advance_snake gMain stBonus (6, 6) false (7, 7) (9, 9)).2.score =
        stBonus.score + 15 ∧
      (advance_snake gMain stBonus (6, 6) false (7, 7) (9, 9)).2.speed_ms =
        max 40 (stBonus.speed_ms - 5) ∧
      (advance_snake gMain stBonus (6, 6) false (7, 7) (9, 9)).2.food = (6, 6)) ∧
    ((advance_snake gMain stBase (6, 6) false (7, 7) (9, 9)).2.speed_ms =
      stBase.speed_ms) := by
  have h1 := (consumption_effects gMain stBonus (6, 6) false (7, 7) (9, 9)).1
    (by decide) (by decide) (by decide) (by decide)
  have h2 := (consumption_effects gMain stBase (6, 6) false (7, 7) (9, 9)).1
  exact ⟨⟨h1.1, h1.2.2.1, h1.2.2.2⟩, by decide⟩

/-- C7: `_load_high_score` returns 0 for a missing/unreadable file and
for unparseable content, and is total (never raises);
`_save_high_score` writes `max(high_score, 0)` over any prior content;
saving 42 and loading yields 42. -/
theorem high_score_persistence :
    load_high_score none = 0 ∧
    load_high_score (some "not a number") = 0 ∧
    (∀ hs : Int, save_high_score hs = some (toString (max hs 0))) ∧
    load_high_score (save_high_score 42) = 42 :=
  ⟨rfl, by decide, fun _ => rfl, by decide⟩

/-- C8: `_reset_round` (invoked on the GameOver → Playing retry
transition) resets the score to 0, the level to 1, the speed to the
selected difficulty's base speed, the pending growth to 0 and empties
the move queue, while the high score is preserved unchanged. -/
theorem reset_round_spec (g : Geom) (diff : Difficulty) (s : GState)
    (obs_cells : List Cell) (fcell : Cell) :
    (reset_round g diff s obs_cells fcell).score = 0 ∧
    (reset_round g diff s obs_cells fcell).level = 1 ∧
    (reset_round g diff s obs_cells fcell).speed_ms = diff.speed_ms ∧
    (reset_round g diff s obs_cells fcell).pending_growth = 0 ∧
    (reset_round g diff s obs_cells fcell).move_queue = [] ∧
    (reset_round g diff s obs_cells fcell).high_score = s.high_score :=
  ⟨rfl, rfl, rfl, rfl, rfl, rfl⟩

/-- C9 counterexample: on the 10×8-terminal geometry `gSmall` the
sampling constraints of `_reset_round` are satisfiable (so a real run
completes the reset), yet the round is initialized with the snake's
head at `(5, 5)`, which lies on the wall ring — no configuration error
is raised and no refusal happens. -/
theorem no_size_validation_cex :
    ResetOK gSmall dCalm [(4, 3)] (4, 4) ∧
    (reset_round gSmall dCalm stBase [(4, 3)] (4, 4)).snake.head? =
      some (5, 5) ∧
    hits_wall gSmall (5, 5) = true := by
  refine ⟨⟨by decide, by decide, by decide⟩, by decide, by decide⟩

/-- C9 amended: the engine performs no field-size validation.  On a
terminal whose play field is 4 columns wide (`gSmall`), `_reset_round`
initializes the round for every difficulty and prior state, and the
centered snake's head always lies on the wall ring; no error is
surfaced. -/
theorem no_size_validation (diff : Difficulty) (s : GState)
    (obs_cells : List Cell) (fcell : Cell) :
    (reset_round gSmall diff s obs_cells fcell).snake.head? = some (5, 5) ∧
    hits_wall gSmall (5, 5) = true :=
  ⟨rfl, rfl⟩

/-- C10: with no pending growth and a snake of length ≥ 2, a new head
equal to the current tail cell crashes the tick, because the
self-collision test runs against the full body before the tail pop;
the state comes back unmodified. -/
theorem tail_collision_crashes (g : Geom) (s : GState) (fcell : Cell)
    (roll : Bool) (bcell ocell : Cell)
    (hpg : s.pending_growth = 0) (hlen : 2 ≤ s.snake.length)
    (htail : s.snake.getLast? = some s.new_head) :
    (advance_snake g s fcell roll bcell ocell).1 = false ∧
    (advance_snake g s fcell roll bcell ocell).2 = s := by
  have hmem : s.new_head ∈ s.snake := by
    obtain ⟨hne, heq⟩ := List.mem_getLast?_eq_getLast (Option.mem_def.mpr htail)
    rw [heq]
    exact List.getLast_mem hne
  unfold advance_snake
  dsimp only
  rw [if_pos (by simp [hmem])]
  exact ⟨rfl, rfl⟩

/-- C10 witness: turning the 2-segment snake back onto its tail
crashes. -/
theorem tail_collision_crashes_witness :
    stTail.pending_growth = 0 ∧ 2 ≤ stTail.snake.length ∧
    stTail.snake.getLast? = some stTail.new_head ∧
    (advance_snake gMain stTail (5, 5) false (6, 6) (7, 7)).1 = false ∧
    (advance_snake gMain stTail (5, 5) false (6, 6) (7, 7)).2 = stTail :=
  ⟨by decide, by decide, by decide,
   (tail_collision_crashes gMain stTail (5, 5) false (6, 6) (7, 7)
      (by decide) (by decide) (by decide)).1,
   (tail_collision_crashes gMain stTail (5, 5) false (6, 6) (7, 7)
      (by decide) (by decide) (by decide)).2⟩
